import Mathlib

/-
  Verification development for the pgcs-spring-jam-2024 engine core.

  Shallow embedding of the engine's frame driver, scene-transition state
  machine, stats accumulator, input stick handling, entity/side-collection
  lifecycle, rigid-body box construction and the particle raster pass.
  Wall-clock times and profiled durations are modelled as rationals; the
  stick vectors and rigid-body geometry, which go through square roots and
  trigonometry, are modelled over the reals.
-/

/- ## Entity update loop (engine.py Engine.run lines 400-404, entity.py Entity.kill)

`Engine.run` executes `for entity in self.scene.entities: entity.update()`,
and `Entity.kill` executes `self.scene.entities.remove(self)` on that same
list.  An entity is modelled by an identifier plus whether its `update()`
kills it (as `RigidBody.update` does when the body leaves the window).  The
loop is modelled with CPython list-iterator semantics: the iterator keeps an
index, fetches `entities[i]`, runs the body (which may shrink the list by
removing the first element equal to the entity), then advances to `i + 1`. -/

structure UEnt where
  id : Nat
  selfKill : Bool
deriving DecidableEq

/-- `list.remove(self)`: drop the first element with the entity's identity. -/
def removeEnt (l : List UEnt) (e : UEnt) : List UEnt :=
  l.eraseP (fun a => a.id == e.id)

/-- One update phase of the driver, fuelled by the initial list length
(the index grows every step and the list never grows, so this fuel always
suffices).  Returns the ids whose `update()` was invoked, in order. -/
def runUpdates : Nat → List UEnt → Nat → List Nat
  | 0, _, _ => []
  | fuel + 1, l, i =>
    match l[i]? with
    | none => []
    | some e => e.id :: runUpdates fuel (if e.selfKill then removeEnt l e else l) (i + 1)

/-- The driver's per-frame update phase over the scene's entity list. -/
def updatePhase (l : List UEnt) : List Nat :=
  runUpdates l.length l 0

/- ## Scene transition state machine (engine.py Engine.__init__ 232-236,
change_scene 328-330, change_scene_transition 332-338, run 440-459) -/

structure TransState where
  in_transition : Bool
  transitioned : Bool
  current : String
  transition_scene : String
  transition_start : ℚ
  transition_duration : ℚ
deriving DecidableEq

/-- Engine.__init__: no transition active, duration 0, start time is the
construction time, current scene as set up by the first add_scene call. -/
def initTransState (initial : String) (t0 : ℚ) : TransState :=
  { in_transition := false, transitioned := false, current := initial,
    transition_scene := "", transition_start := t0, transition_duration := 0 }

/-- Engine.change_scene. -/
def change_scene (s : TransState) (scene_name : String) : TransState :=
  { s with current := scene_name }

/-- Engine.change_scene_transition. -/
def change_scene_transition (s : TransState) (scene_name : String)
    (duration : ℚ) (now : ℚ) : TransState :=
  { s with in_transition := true, transition_scene := scene_name,
           transition_duration := duration, transition_start := now,
           transitioned := false }

/-- The transition block executed once per frame inside Engine.run
(lines 441-449): compute `t`, swap the scene one-shot at `t >= 0.5`,
leave the transition at `t >= 1.0`. -/
def frameTransition (s : TransState) (now : ℚ) : TransState :=
  if s.in_transition then
    let t := (now - s.transition_start) / s.transition_duration
    let s1 := if ¬ s.transitioned ∧ 1/2 ≤ t then
        change_scene { s with transitioned := true } s.transition_scene
      else s
    if 1 ≤ t then { s1 with in_transition := false } else s1
  else s

/-- The `fade` value handed to the post shader (`u_fade`) on a frame at time
`now` (engine.py lines 440-459): 1.0 outside transitions, otherwise
`t*2-1` for `t >= 0.5` and `(1-t)*2-1` below the midpoint. -/
def fadeValue (s : TransState) (now : ℚ) : ℚ :=
  if s.in_transition then
    let t := (now - s.transition_start) / s.transition_duration
    if 1/2 ≤ t then t * 2 - 1 else (1 - t) * 2 - 1
  else 1

/-- Run the per-frame transition block over a list of frame times. -/
def runFrames (s : TransState) (ts : List ℚ) : TransState :=
  ts.foldl frameTransition s

/-- Transition-machine states reachable from engine construction under frame
steps, direct scene changes, and transition requests with positive duration. -/
inductive ReachableT : TransState → Prop where
  | init (initial : String) (t0 : ℚ) : ReachableT (initTransState initial t0)
  | frame (s : TransState) (now : ℚ) :
      ReachableT s → ReachableT (frameTransition s now)
  | request (s : TransState) (scene_name : String) (D T : ℚ) :
      ReachableT s → 0 < D → ReachableT (change_scene_transition s scene_name D T)
  | direct (s : TransState) (scene_name : String) :
      ReachableT s → ReachableT (change_scene s scene_name)

/- ## Scene registry (engine.py Engine.add_scene 319-326, scene property 314-317)

`add_scene` instantiates the scene, stores it under its class name and makes
it current; the `scene` property reads `self.scenes[self.__current_scene]`.
The dict is modelled as an association list whose most recent binding wins. -/

structure EngineScenes where
  trans : TransState
  scenes : List (String × Nat)

/-- Engine.add_scene: construct the instance, point `__current_scene` at its
class name, store it in the dict (overwriting any previous binding). -/
def add_scene (e : EngineScenes) (class_name : String) (inst : Nat) : EngineScenes :=
  { e with trans := { e.trans with current := class_name },
           scenes := (class_name, inst) :: e.scenes }

/-- The Engine.scene property: `self.scenes[self.__current_scene]`. -/
def sceneProp (e : EngineScenes) : Option Nat :=
  e.scenes.lookup e.trans.current

/- ## Stats accumulator (engine.py Engine.__init__ 246-253, _accumulate 363-374)

A series is a growing list `acc` plus the derived avg/min/max, which are
only recomputed once the list has exceeded `stat_accumulate` entries. -/

structure StatSeries where
  acc : List ℚ
  avg : ℚ
  minv : ℚ
  maxv : ℚ
deriving DecidableEq

def stat_accumulate : Nat := 30

/-- Python `min(acc)` over a nonempty list (0 on the empty list, which the
code never reaches because `_accumulate` only calls it after a pop from a
list of 31). -/
def pyListMin : List ℚ → ℚ
  | [] => 0
  | x :: t => t.foldl min x

/-- Python `max(acc)` over a nonempty list. -/
def pyListMax : List ℚ → ℚ
  | [] => 0
  | x :: t => t.foldl max x

/-- Engine._accumulate: append, and once the list has grown past the window,
pop the head and recompute avg/min/max over the remaining window. -/
def accumulate (s : StatSeries) (value : ℚ) : StatSeries :=
  let acc := s.acc ++ [value]
  if stat_accumulate < acc.length then
    let acc2 := acc.drop 1
    { acc := acc2, avg := acc2.sum / (acc2.length : ℚ),
      minv := pyListMin acc2, maxv := pyListMax acc2 }
  else { s with acc := acc }

def initSeries : StatSeries :=
  { acc := [], avg := 0, minv := 0, maxv := 0 }

/-- Record a list of samples into a fresh series, in order. -/
def feedSamples (samples : List ℚ) : StatSeries :=
  samples.foldl accumulate initSeries

/- ## Analog stick (input.py InputManager.get_stick 94-106)

`get_stick` reads the raw axis vector, takes `length_squared()`, normalizes
in place when that squared length exceeds 1, and zeroes the result when the
squared length is below `min_drift_threshold = 0.01`.  Vectors are modelled
over the reals; `normalize_ip` divides by the Euclidean length. -/

noncomputable def vecMag (v : ℝ × ℝ) : ℝ := Real.sqrt (v.1 ^ 2 + v.2 ^ 2)

noncomputable def normalize_ip (v : ℝ × ℝ) : ℝ × ℝ := (v.1 / vecMag v, v.2 / vecMag v)

noncomputable def min_drift_threshold : ℝ := 1 / 100

open Classical in
/-- InputManager.get_stick for a present joystick reporting raw axes `raw`. -/
noncomputable def get_stick (raw : ℝ × ℝ) : ℝ × ℝ :=
  let length := raw.1 ^ 2 + raw.2 ^ 2
  let axis := if 1 < length then normalize_ip raw else raw
  if length < min_drift_threshold then (0, 0) else axis

/- ## Box rigid body (scenes/game.py RigidBody.from_box 51-86 and its
readback render_before 133-146; scenes/water.py has the same construction)

`from_box` halves the size, builds the four local corner points, creates the
body at the given position/angle and attaches a `pymunk.Poly` with those
points.  Reading vertices back goes through `v.rotated(angle) + position`. -/

structure PBody where
  position : ℝ × ℝ
  angle : ℝ

structure PPoly where
  body : PBody
  points : List (ℝ × ℝ)

/-- pymunk `Vec2d.rotated`. -/
noncomputable def vecRotated (v : ℝ × ℝ) (angle : ℝ) : ℝ × ℝ :=
  (v.1 * Real.cos angle - v.2 * Real.sin angle,
   v.1 * Real.sin angle + v.2 * Real.cos angle)

/-- RigidBody.from_box: the body/shape data relevant to vertex readback. -/
noncomputable def from_box (position : ℝ × ℝ) (size : ℝ × ℝ) (angle : ℝ) : PPoly :=
  let width := size.1 / 2
  let height := size.2 / 2
  { body := { position := position, angle := angle },
    points := [(-width, -height), (-width, height), (width, height), (width, -height)] }

/-- Vertex readback as performed by the renderer:
`v.rotated(body.angle) + body.position` for each stored point. -/
noncomputable def readVertices (p : PPoly) : List (ℝ × ℝ) :=
  p.points.map fun v =>
    ((vecRotated v p.body.angle).1 + p.body.position.1,
     (vecRotated v p.body.angle).2 + p.body.position.2)

/- ## Particle position buffer and raster pass
(scenes/game.py Game.render_post 491-499 with water_postprocess.py
WaterPostProcess.render 398-403; scenes/water.py Game.render_post 622-640)

The buffer holds `max_particles` slots of two floats.  `buffer.clear()`
zero-fills it.  The Game scene writes the packed list of particle positions
at offset 0 and draws `len(self.particles)` point vertices; the water.py
scene writes each circle body at slot `entity_index + 1` and draws the
whole buffer (its draw call passes no vertex count). -/

def max_particles : Nat := 5000

def clearedBuffer : List (ℚ × ℚ) := List.replicate max_particles (0, 0)

/-- `buffer.write(data, offset)`: overwrite `data.length` slots starting at
`slot`. -/
def writeBufferAt (buf : List (ℚ × ℚ)) (slot : Nat) (data : List (ℚ × ℚ)) :
    List (ℚ × ℚ) :=
  buf.take slot ++ data ++ buf.drop (slot + data.length)

/-- game.py Game.render_post + WaterPostProcess.render: clear, write all of
`self.particles` at offset 0, draw `len(self.particles)` point vertices.
Returns the buffer contents and the drawn vertex count. -/
def gameRasterPass (particles : List (ℚ × ℚ)) : List (ℚ × ℚ) × Nat :=
  (writeBufferAt clearedBuffer 0 particles, particles.length)

structure WEnt where
  isCircle : Bool
  posx : ℚ
  posy : ℚ
deriving DecidableEq

/-- water.py Game.render_post buffer rewrite: `for i, body in
enumerate(self.entities)`, circle bodies written at slot `i + 1`. -/
def waterWriteAux : List (ℚ × ℚ) → Nat → List WEnt → List (ℚ × ℚ)
  | buf, _, [] => buf
  | buf, i, e :: es =>
      waterWriteAux (if e.isCircle then buf.set (i + 1) (e.posx, e.posy) else buf)
        (i + 1) es

/-- water.py Game.render_post: clear, rewrite, then
`particle_vao.render(moderngl.POINTS)` with no vertex count — the draw
covers the whole allocated buffer. -/
def waterRasterPass (es : List WEnt) : List (ℚ × ℚ) × Nat :=
  (waterWriteAux clearedBuffer 0 es, max_particles)

/- ## Entity kill and side collections (entity.py Entity.kill 29-32,
scenes/game.py RigidBody.__init__ 34-49, RigidBody.update 116-131,
Game.load_level 233-249, Game.melt 286-307)

`kill()` removes the entity from the scene's primary list only; each call
site separately maintains the side collections: the despawn site removes
the body from `particles` (circles) or `icecubes` (boxes) right after the
kill; `load_level` kills every particle and icecube and then clears both
lists; `melt` spawns fresh particles, kills each icecube and clears the
list.  Entities are modelled by identifiers. -/

structure GameCols where
  entities : List Nat
  particles : List Nat
  icecubes : List Nat
deriving DecidableEq

/-- Entity.kill: `self.scene.entities.remove(self)`. -/
def killEnt (c : GameCols) (e : Nat) : GameCols :=
  { c with entities := c.entities.erase e }

/-- RigidBody.update despawn site: kill, then remove from `particles` when
the shape is a circle, else from `icecubes`. -/
def despawnSite (c : GameCols) (e : Nat) (isCircle : Bool) : GameCols :=
  let c1 := killEnt c e
  if isCircle then { c1 with particles := c1.particles.erase e }
  else { c1 with icecubes := c1.icecubes.erase e }

/-- Game.load_level cleanup: kill every particle then clear the list, kill
every icecube then clear the list. -/
def load_level_clear (c : GameCols) : GameCols :=
  let c1 := { c with entities := c.particles.foldl List.erase c.entities }
  let c2 := { c1 with particles := [] }
  let c3 := { c2 with entities := c.icecubes.foldl List.erase c2.entities }
  { c3 with icecubes := [] }

/-- RigidBody.from_circle registration: the new particle entity is appended
to both the scene's entity list and its `particles` side list. -/
def spawnParticle (c : GameCols) (pid : Nat) : GameCols :=
  { c with entities := c.entities ++ [pid], particles := c.particles ++ [pid] }

/-- One iteration of Game.melt: spawn the replacement particles for one
icecube, then kill the icecube. -/
def meltOne (c : GameCols) (step : Nat × List Nat) : GameCols :=
  killEnt (step.2.foldl spawnParticle c) step.1

/-- Game.melt: process every icecube (the plan pairs each icecube id with
the fresh ids of the particles spawned for it), then clear `icecubes`. -/
def meltSite (c : GameCols) (plan : List (Nat × List Nat)) : GameCols :=
  { (plan.foldl meltOne c) with icecubes := [] }

/- ## Theorems -/

/-- Claim C1 (refuting evaluation): in the driver's update phase, an entity
whose `update()` kills itself makes the Python list iterator skip the entity
immediately after it.  With entities 0 (self-killing), 1 and 2 all live at
the start of the phase, the phase invokes `update()` on 0 and 2 only:
entity 1 is never updated that frame. -/
theorem c1_update_skip :
    updatePhase [⟨0, true⟩, ⟨1, false⟩, ⟨2, false⟩] = [0, 2] ∧
    1 ∉ updatePhase [⟨0, true⟩, ⟨1, false⟩, ⟨2, false⟩] := by
  constructor <;> decide

/-- Claim C10: `add_scene` registers the instance under its class name and
unconditionally makes it current: immediately afterwards the `scene`
property yields exactly the instance just created, whatever scene was
current before and whatever transition state was pending (the transition
flags are untouched). -/
theorem c10_add_scene (e : EngineScenes) (class_name : String) (inst : Nat) :
    (add_scene e class_name inst).trans.current = class_name ∧
    sceneProp (add_scene e class_name inst) = some inst ∧
    (add_scene e class_name inst).trans.in_transition = e.trans.in_transition := by
  refine ⟨rfl, ?_, rfl⟩
  simp [sceneProp, add_scene, List.lookup]

/- ### Transition machine lemmas -/

theorem frame_fixes_request_fields (s : TransState) (now : ℚ) :
    (frameTransition s now).transition_start = s.transition_start ∧
    (frameTransition s now).transition_duration = s.transition_duration ∧
    (frameTransition s now).transition_scene = s.transition_scene := by
  simp only [frameTransition, change_scene]
  split_ifs <;> simp

theorem frame_of_idle (s : TransState) (now : ℚ) (h : s.in_transition = false) :
    frameTransition s now = s := by
  simp [frameTransition, h]

theorem frame_before_mid (s : TransState) (now : ℚ) (hin : s.in_transition = true)
    (hD : 0 < s.transition_duration)
    (hnow : now < s.transition_start + s.transition_duration / 2) :
    frameTransition s now = s := by
  obtain ⟨it, tr, cur, scn, st, dur⟩ := s
  simp only at hD hnow ⊢
  subst hin
  have ht : (now - st) / dur < 1/2 := by rw [div_lt_iff₀ hD]; linarith
  have h2 : ¬ ((2⁻¹:ℚ) ≤ (now - st) / dur) := not_le.mpr (by linarith)
  have h3 : ¬ ((1:ℚ) ≤ (now - st) / dur) := not_le.mpr (lt_trans ht (by norm_num))
  simp [frameTransition, h2, h3]

theorem runFrames_before_mid (ts : List ℚ) (s : TransState)
    (hin : s.in_transition = true) (hD : 0 < s.transition_duration)
    (hts : ∀ u ∈ ts, u < s.transition_start + s.transition_duration / 2) :
    runFrames s ts = s := by
  induction ts with
  | nil => rfl
  | cons a t ih =>
    have ha := frame_before_mid s a hin hD (hts a (by simp))
    have hstep : runFrames s (a :: t) = runFrames (frameTransition s a) t := rfl
    rw [hstep, ha]
    exact ih fun u hu => hts u (by simp [hu])

theorem frame_swap (s : TransState) (now : ℚ) (hin : s.in_transition = true)
    (htr : s.transitioned = false) (hD : 0 < s.transition_duration)
    (hnow : s.transition_start + s.transition_duration / 2 ≤ now) :
    (frameTransition s now).current = s.transition_scene ∧
    (frameTransition s now).transitioned = true := by
  obtain ⟨it, tr, cur, scn, st, dur⟩ := s
  simp only at hD hnow ⊢
  subst hin; subst htr
  have ht : (1:ℚ)/2 ≤ (now - st) / dur := by rw [le_div_iff₀ hD]; linarith
  simp only [frameTransition, change_scene]
  split_ifs with h1 h2 h3 <;> simp_all

theorem frame_end (s : TransState) (now : ℚ) (hin : s.in_transition = true)
    (hD : 0 < s.transition_duration)
    (hnow : s.transition_start + s.transition_duration ≤ now) :
    (frameTransition s now).in_transition = false := by
  obtain ⟨it, tr, cur, scn, st, dur⟩ := s
  simp only at hD hnow ⊢
  subst hin
  have ht : (1:ℚ) ≤ (now - st) / dur := by rw [le_div_iff₀ hD]; linarith
  simp only [frameTransition, change_scene]
  split_ifs with h1 h2 h3 <;> simp_all

theorem frame_after_swap (s : TransState) (now : ℚ) (htr : s.transitioned = true) :
    (frameTransition s now).current = s.current ∧
    (frameTransition s now).transitioned = true := by
  simp only [frameTransition, change_scene, htr]
  split_ifs <;> simp_all

theorem runFrames_after_swap (ts : List ℚ) (s : TransState) (htr : s.transitioned = true) :
    (runFrames s ts).current = s.current ∧ (runFrames s ts).transitioned = true := by
  induction ts generalizing s with
  | nil => exact ⟨rfl, htr⟩
  | cons a t ih =>
    have ha := frame_after_swap s a htr
    have : runFrames s (a :: t) = runFrames (frameTransition s a) t := rfl
    rw [this]
    rcases ih (frameTransition s a) ha.2 with ⟨h1, h2⟩
    exact ⟨h1.trans ha.1, h2⟩

theorem runFrames_of_idle (ts : List ℚ) (s : TransState) (h : s.in_transition = false) :
    runFrames s ts = s := by
  induction ts with
  | nil => rfl
  | cons a t ih =>
    have : runFrames s (a :: t) = runFrames (frameTransition s a) t := rfl
    rw [this, frame_of_idle s a h, ih]

theorem runFrames_fixes_request_fields (ts : List ℚ) (s : TransState) :
    (runFrames s ts).transition_start = s.transition_start ∧
    (runFrames s ts).transition_duration = s.transition_duration ∧
    (runFrames s ts).transition_scene = s.transition_scene := by
  induction ts generalizing s with
  | nil => exact ⟨rfl, rfl, rfl⟩
  | cons a t ih =>
    have hstep : runFrames s (a :: t) = runFrames (frameTransition s a) t := rfl
    have hf := frame_fixes_request_fields s a
    have hr := ih (frameTransition s a)
    exact ⟨hr.1.trans hf.1, hr.2.1.trans hf.2.1, hr.2.2.trans hf.2.2⟩

theorem frame_ends_any (s : TransState) (w : ℚ) (hD : 0 < s.transition_duration)
    (hw : s.transition_start + s.transition_duration ≤ w) :
    (frameTransition s w).in_transition = false ∧
    ∀ ts : List ℚ, (runFrames (frameTransition s w) ts).in_transition = false := by
  rcases Bool.eq_false_or_eq_true s.in_transition with htI | hf
  · have h1 : (frameTransition s w).in_transition = false := frame_end s w htI hD hw
    exact ⟨h1, fun ts => by rw [runFrames_of_idle ts _ h1]; exact h1⟩
  · have h1 : (frameTransition s w).in_transition = false := by
      rw [frame_of_idle s w hf]; exact hf
    exact ⟨h1, fun ts => by rw [runFrames_of_idle ts _ h1]; exact h1⟩

/-- Claim C2: after `change_scene_transition(target, D)` at time `T` with
`D > 0` and no further requests, every frame processed before the midpoint
(`t < 0.5`, i.e. before `T + D/2`) still sees the outgoing scene; the first
frame at or past the midpoint swaps the active scene pointer to the target,
and it stays the target for all later frames (the swap is one-shot, guarded
by `transitioned`); if the midpoint frame is already at or past `T + D` the
machine reports not-in-transition from it onward; and in any case the first
frame at or past `T + D` turns `in_transition` off for good. -/
theorem c2_transition_timing (s0 : TransState) (target : String) (D T : ℚ)
    (hD : 0 < D) (ts1 : List ℚ) (h1 : ∀ u ∈ ts1, u < T + D / 2)
    (u : ℚ) (hu : T + D / 2 ≤ u) (ts2 : List ℚ) :
    (runFrames (change_scene_transition s0 target D T) ts1).current = s0.current ∧
    (frameTransition (runFrames (change_scene_transition s0 target D T) ts1) u).current
      = target ∧
    (runFrames (frameTransition (runFrames (change_scene_transition s0 target D T) ts1) u)
      ts2).current = target ∧
    (runFrames (frameTransition (runFrames (change_scene_transition s0 target D T) ts1) u)
      ts2).transitioned = true ∧
    (T + D ≤ u →
      (frameTransition (runFrames (change_scene_transition s0 target D T) ts1) u).in_transition
        = false ∧
      (runFrames (frameTransition (runFrames (change_scene_transition s0 target D T) ts1) u)
        ts2).in_transition = false) ∧
    (∀ (w : ℚ) (ts3 : List ℚ), T + D ≤ w →
      (frameTransition (runFrames (frameTransition (runFrames
        (change_scene_transition s0 target D T) ts1) u) ts2) w).in_transition = false ∧
      (runFrames (frameTransition (runFrames (frameTransition (runFrames
        (change_scene_transition s0 target D T) ts1) u) ts2) w) ts3).in_transition
        = false) := by
  set s1 := change_scene_transition s0 target D T with hs1
  have h1a : s1.in_transition = true := rfl
  have h1b : s1.transitioned = false := rfl
  have h1c : s1.transition_start = T := rfl
  have h1d : s1.transition_duration = D := rfl
  have h1e : s1.transition_scene = target := rfl
  have h1f : s1.current = s0.current := rfl
  have hD1 : 0 < s1.transition_duration := by rw [h1d]; exact hD
  have hrun : runFrames s1 ts1 = s1 :=
    runFrames_before_mid ts1 s1 h1a hD1 (by rw [h1c, h1d]; exact h1)
  have hswap := frame_swap s1 u h1a h1b hD1 (by rw [h1c, h1d]; exact hu)
  have hafter := runFrames_after_swap ts2 (frameTransition s1 u) hswap.2
  refine ⟨by rw [hrun, h1f], by rw [hrun]; exact hswap.1.trans h1e, ?_, ?_, ?_, ?_⟩
  · rw [hrun]
    exact hafter.1.trans (hswap.1.trans h1e)
  · rw [hrun]
    exact hafter.2
  · intro hend
    have hidle : (frameTransition s1 u).in_transition = false :=
      frame_end s1 u h1a hD1 (by rw [h1c, h1d]; exact hend)
    refine ⟨by rw [hrun]; exact hidle, ?_⟩
    rw [hrun, runFrames_of_idle ts2 (frameTransition s1 u) hidle]
    exact hidle
  · intro w ts3 hw
    rw [hrun]
    set sfin := runFrames (frameTransition s1 u) ts2 with hsfin
    have hfields1 := frame_fixes_request_fields s1 u
    have hfields2 := runFrames_fixes_request_fields ts2 (frameTransition s1 u)
    have hst : sfin.transition_start = T := by
      rw [hsfin, hfields2.1, hfields1.1, h1c]
    have hdur : sfin.transition_duration = D := by
      rw [hsfin, hfields2.2.1, hfields1.2.1, h1d]
    have hends := frame_ends_any sfin w (by rw [hdur]; exact hD)
      (by rw [hst, hdur]; exact hw)
    exact ⟨hends.1, hends.2 ts3⟩

theorem c2_transition_timing_witness :
    (runFrames (change_scene_transition (initTransState "A" 0) "B" 2 0) [0, 9/10]).current
      = "A" ∧
    (frameTransition (runFrames (change_scene_transition (initTransState "A" 0) "B" 2 0)
      [0, 9/10]) 2).current = "B" ∧
    (runFrames (frameTransition (runFrames (change_scene_transition (initTransState "A" 0)
      "B" 2 0) [0, 9/10]) 2) [3]).current = "B" ∧
    (runFrames (frameTransition (runFrames (change_scene_transition (initTransState "A" 0)
      "B" 2 0) [0, 9/10]) 2) [3]).in_transition = false ∧
    (frameTransition (runFrames (frameTransition (runFrames (change_scene_transition
      (initTransState "A" 0) "B" 2 0) [0, 9/10]) 2) [3]) 5).in_transition = false := by
  have h := c2_transition_timing (initTransState "A" 0) "B" 2 0 (by norm_num) [0, 9/10]
    (by intro u hu; fin_cases hu <;> norm_num) 2 (by norm_num) [3]
  exact ⟨h.1, h.2.1, h.2.2.1, (h.2.2.2.2.1 (by norm_num)).2,
    (h.2.2.2.2.2 5 [6] (by norm_num)).1⟩

/-- Claim C7 counterexample: the fade value handed to the renderer does not
rise from 0 to 1 over the first half of the transition.  For a transition of
duration 1 started at time 0, the frame at `t = 0` hands the shader fade 1
(the claim requires 0 there) and the frame at `t = 1/2` hands fade 0 (the
claim requires 1 there). -/
theorem c7_fade_counterexample :
    fadeValue (change_scene_transition (initTransState "A" 0) "B" 1 0) 0 = 1 ∧
    fadeValue (change_scene_transition (initTransState "A" 0) "B" 1 0) (1/2) = 0 := by
  constructor <;> norm_num [fadeValue, change_scene_transition, initTransState]

/-- Claim C7 (amended): during a transition the fade value handed to the
renderer follows the inverted triangle wave `1 - 2t` on `t < 0.5` (falling
from 1 to 0) and `2t - 1` on `t >= 0.5` (rising from 0 back to 1);
equivalently the black-overlay opacity `1 - fade` follows the claimed
0→1→0 triangle wave. -/
theorem c7_fade_shape (s : TransState) (now : ℚ) (hin : s.in_transition = true) :
    ((now - s.transition_start) / s.transition_duration < 1/2 →
      fadeValue s now = 1 - 2 * ((now - s.transition_start) / s.transition_duration)) ∧
    (1/2 ≤ (now - s.transition_start) / s.transition_duration →
      fadeValue s now = 2 * ((now - s.transition_start) / s.transition_duration) - 1) := by
  obtain ⟨it, tr, cur, scn, st, dur⟩ := s
  simp only at hin ⊢
  subst hin
  constructor
  · intro h
    have h2 : ¬ ((2⁻¹:ℚ) ≤ (now - st) / dur) := not_le.mpr (by linarith)
    simp [fadeValue, h2]
    ring
  · intro h
    have h2 : ((2⁻¹:ℚ) ≤ (now - st) / dur) := by linarith
    simp [fadeValue, h2]
    ring

theorem c7_fade_shape_witness :
    fadeValue (change_scene_transition (initTransState "A" 0) "B" 1 0) (1/4) = 1/2 ∧
    fadeValue (change_scene_transition (initTransState "A" 0) "B" 1 0) (3/4) = 1/2 := by
  constructor
  · exact ((c7_fade_shape (change_scene_transition (initTransState "A" 0) "B" 1 0) (1/4)
      rfl).1 (by norm_num [change_scene_transition, initTransState])).trans
      (by norm_num [change_scene_transition, initTransState])
  · exact ((c7_fade_shape (change_scene_transition (initTransState "A" 0) "B" 1 0) (3/4)
      rfl).2 (by norm_num [change_scene_transition, initTransState])).trans
      (by norm_num [change_scene_transition, initTransState])

/-- Claim C9 counterexample: `change_scene_transition` does not validate its
duration, so a single request with duration 0 — a legal call sequence —
reaches a state with `in_transition` true and a non-positive duration. -/
theorem c9_zero_duration :
    (change_scene_transition (initTransState "A" 0) "B" 0 5).in_transition = true ∧
    ¬ (0 < (change_scene_transition (initTransState "A" 0) "B" 0 5).transition_duration) := by
  constructor
  · rfl
  · norm_num [change_scene_transition, initTransState]

/-- Claim C9 (amended): in every state reachable under frame steps, direct
scene changes and transition requests whose duration is strictly positive,
`in_transition` implies a strictly positive duration; and a transition
request unconditionally overwrites the target, duration and start time and
(re)arms the machine — at most one transition is active, with no queue. -/
theorem c9_invariant (s : TransState) (hs : ReachableT s) :
    (s.in_transition = true → 0 < s.transition_duration) ∧
    (∀ (scene_name : String) (D T : ℚ),
      (change_scene_transition s scene_name D T).transition_scene = scene_name ∧
      (change_scene_transition s scene_name D T).transition_duration = D ∧
      (change_scene_transition s scene_name D T).transition_start = T ∧
      (change_scene_transition s scene_name D T).in_transition = true ∧
      (change_scene_transition s scene_name D T).transitioned = false) := by
  constructor
  · induction hs with
    | init initial t0 => intro h; simp [initTransState] at h
    | frame s now hs ih =>
      intro h
      rcases Bool.eq_false_or_eq_true s.in_transition with htI | hf
      · rw [(frame_fixes_request_fields s now).2.1]
        exact ih htI
      · rw [frame_of_idle s now hf] at h ⊢
        exact ih h
    | request s scene_name D T hs hD ih =>
      intro _
      simpa [change_scene_transition] using hD
    | direct s scene_name hs ih =>
      intro h
      simp only [change_scene] at h ⊢
      exact ih h
  · intro scene_name D T
    exact ⟨rfl, rfl, rfl, rfl, rfl⟩

theorem c9_invariant_witness :
    0 < (change_scene_transition (initTransState "A" 0) "B" 1 2).transition_duration ∧
    (change_scene_transition (change_scene_transition (initTransState "A" 0) "B" 1 2)
      "C" 3 4).transition_scene = "C" := by
  have hreach : ReachableT (change_scene_transition (initTransState "A" 0) "B" 1 2) :=
    ReachableT.request _ "B" 1 2 (ReachableT.init "A" 0) (by norm_num)
  have h := c9_invariant _ hreach
  exact ⟨h.1 rfl, (h.2 "C" 3 4).1⟩

/-- While the series still has at most `stat_accumulate` samples after each
insert, `_accumulate` only appends: no eviction and no stats recomputation. -/
theorem feed_under_capacity (xs : List ℚ) (s : StatSeries)
    (h : s.acc.length + xs.length ≤ stat_accumulate) :
    xs.foldl accumulate s = { s with acc := s.acc ++ xs } := by
  induction xs generalizing s with
  | nil => simp
  | cons x t ih =>
    have hlen2 : ¬ (stat_accumulate < s.acc.length + 1) := by
      simp only [List.length_cons] at h
      omega
    have hstep : accumulate s x = { s with acc := s.acc ++ [x] } := by
      simp [accumulate, hlen2]
    have hrec := ih { s with acc := s.acc ++ [x] }
      (by simp only [List.length_append, List.length_cons, List.length_nil] at h ⊢; omega)
    calc (x :: t).foldl accumulate s = t.foldl accumulate (accumulate s x) := rfl
      _ = t.foldl accumulate { s with acc := s.acc ++ [x] } := by rw [hstep]
      _ = { s with acc := (s.acc ++ [x]) ++ t } := hrec
      _ = { s with acc := s.acc ++ x :: t } := by rw [List.append_assoc]; rfl

/-- Claim C5: feeding exactly `stat_accumulate + 1 = 31` samples `s0..sN`
into a fresh series leaves exactly the most recent 30 samples `s1..sN` in
the window, and the reported avg/min/max are those of `s1..sN` only — `s0`
is excluded; moreover any insert into a full window evicts exactly the
oldest sample (strict FIFO). -/
theorem c5_stats_window (xs : List ℚ) (hlen : xs.length = stat_accumulate + 1) :
    (feedSamples xs).acc = xs.drop 1 ∧
    (feedSamples xs).avg = (xs.drop 1).sum / 30 ∧
    (feedSamples xs).minv = pyListMin (xs.drop 1) ∧
    (feedSamples xs).maxv = pyListMax (xs.drop 1) ∧
    (∀ (s : StatSeries) (v : ℚ), s.acc.length = stat_accumulate →
      (accumulate s v).acc = s.acc.drop 1 ++ [v]) := by
  have hne : xs ≠ [] := by
    intro h
    rw [h] at hlen
    simp [stat_accumulate] at hlen
  set ys := xs.dropLast with hys
  set z := xs.getLast hne with hz
  have hsplit : ys ++ [z] = xs := List.dropLast_append_getLast hne
  have hyslen : ys.length = stat_accumulate := by
    rw [hys, List.length_dropLast, hlen]
    omega
  have hfold : feedSamples xs = accumulate { initSeries with acc := ys } z := by
    rw [feedSamples, ← hsplit, List.foldl_append]
    rw [feed_under_capacity ys initSeries (by simp [initSeries, hyslen])]
    rfl
  have hover : stat_accumulate < (ys ++ [z]).length := by
    simp only [List.length_append, List.length_cons, List.length_nil, hyslen]
    omega
  have hacc2 : (((ys ++ [z]).drop 1).length : ℚ) = 30 := by
    have : ((ys ++ [z]).drop 1).length = 30 := by
      simp only [List.length_drop, List.length_append, List.length_cons, List.length_nil,
        hyslen]
      rfl
    rw [this]
    norm_num
  have hstep : accumulate { initSeries with acc := ys } z =
      { acc := (ys ++ [z]).drop 1,
        avg := ((ys ++ [z]).drop 1).sum / (((ys ++ [z]).drop 1).length : ℚ),
        minv := pyListMin ((ys ++ [z]).drop 1),
        maxv := pyListMax ((ys ++ [z]).drop 1) } := by
    simp only [accumulate]
    rw [if_pos hover]
  have hdrop : xs.drop 1 = (ys ++ [z]).drop 1 := by rw [hsplit]
  refine ⟨?_, ?_, ?_, ?_, ?_⟩
  · rw [hfold, hstep, hdrop]
  · rw [hfold, hstep, hdrop, hacc2]
  · rw [hfold, hstep, hdrop]
  · rw [hfold, hstep, hdrop]
  · intro s v hs
    have hover2 : stat_accumulate < (s.acc ++ [v]).length := by
      simp only [List.length_append, List.length_cons, List.length_nil, hs]
      omega
    have hstep2 : (accumulate s v).acc = (s.acc ++ [v]).drop 1 := by
      simp only [accumulate]
      rw [if_pos hover2]
    rw [hstep2, List.drop_append_of_le_length (by rw [hs]; simp [stat_accumulate])]

theorem c5_stats_window_witness :
    (feedSamples ((100 : ℚ) :: List.replicate 30 2)).acc
      = ((100 : ℚ) :: List.replicate 30 2).drop 1 ∧
    (feedSamples ((100 : ℚ) :: List.replicate 30 2)).avg
      = (((100 : ℚ) :: List.replicate 30 2).drop 1).sum / 30 ∧
    (accumulate { acc := List.replicate 30 1, avg := 0, minv := 0, maxv := 0 } 7).acc
      = (List.replicate 30 (1 : ℚ)).drop 1 ++ [7] := by
  have h := c5_stats_window ((100 : ℚ) :: List.replicate 30 2) (by simp [stat_accumulate])
  exact ⟨h.1, h.2.1,
    h.2.2.2.2 { acc := List.replicate 30 1, avg := 0, minv := 0, maxv := 0 } 7 (by simp [stat_accumulate])⟩

/-- Claim C6: with a joystick present, a raw stick vector whose magnitude is
below the deadzone threshold makes `get_stick` return the zero vector (the
code zeroes everything with squared length below the threshold, a superset),
and a raw vector whose magnitude exceeds 1 is renormalized so the returned
vector has length exactly 1. -/
theorem c6_stick (x y : ℝ) :
    (vecMag (x, y) < min_drift_threshold → get_stick (x, y) = (0, 0)) ∧
    (1 < vecMag (x, y) → vecMag (get_stick (x, y)) = 1) := by
  have hL0 : (0:ℝ) ≤ x ^ 2 + y ^ 2 := by positivity
  have hsq : Real.sqrt (x ^ 2 + y ^ 2) ^ 2 = x ^ 2 + y ^ 2 := Real.sq_sqrt hL0
  constructor
  · intro h
    have hmag : Real.sqrt (x ^ 2 + y ^ 2) < 1 / 100 := by
      simpa [vecMag, min_drift_threshold] using h
    have hs0 : (0:ℝ) ≤ Real.sqrt (x ^ 2 + y ^ 2) := Real.sqrt_nonneg _
    have hlt : x ^ 2 + y ^ 2 < (1/100 : ℝ) ^ 2 := by
      rw [← hsq]
      exact pow_lt_pow_left₀ hmag hs0 (by norm_num)
    have hcond : x ^ 2 + y ^ 2 < min_drift_threshold := by
      rw [min_drift_threshold]
      nlinarith
    simp only [get_stick]
    rw [if_pos hcond]
  · intro h
    have hmag : 1 < Real.sqrt (x ^ 2 + y ^ 2) := by simpa [vecMag] using h
    have hgt : 1 < x ^ 2 + y ^ 2 := by
      have := pow_lt_pow_left₀ hmag (by norm_num : (0:ℝ) ≤ 1) (two_ne_zero)
      simpa [hsq] using this
    have hnotdz : ¬ (x ^ 2 + y ^ 2 < min_drift_threshold) := by
      rw [min_drift_threshold]
      push_neg
      nlinarith
    have hval : get_stick (x, y) = normalize_ip (x, y) := by
      simp only [get_stick]
      rw [if_neg hnotdz, if_pos hgt]
    have hm_pos : 0 < Real.sqrt (x ^ 2 + y ^ 2) := lt_trans one_pos hmag
    rw [hval]
    have hmageq : vecMag (normalize_ip (x, y)) =
        Real.sqrt ((x ^ 2 + y ^ 2) / Real.sqrt (x ^ 2 + y ^ 2) ^ 2) := by
      simp only [vecMag, normalize_ip]
      congr 1
      field_simp
    rw [hmageq, hsq, div_self (by nlinarith), Real.sqrt_one]

theorem c6_stick_witness :
    get_stick ((0:ℝ), 1/200) = (0, 0) ∧ vecMag (get_stick ((3:ℝ), 4)) = 1 := by
  constructor
  · refine (c6_stick 0 (1/200)).1 ?_
    have h1 : ((0:ℝ)^2 + (1/200)^2) = (1/200)^2 := by norm_num
    rw [vecMag]
    simp only
    rw [h1, Real.sqrt_sq (by norm_num)]
    rw [min_drift_threshold]
    norm_num
  · refine (c6_stick 3 4).2 ?_
    have h1 : ((3:ℝ)^2 + 4^2) = 5^2 := by norm_num
    rw [vecMag]
    simp only
    rw [h1, Real.sqrt_sq (by norm_num)]
    norm_num

/-- Claim C8: a box body of size `(w, h)` constructed at angle 0, with the
world stepped zero times, reads back through the renderer's
`rotate-and-translate` exactly the four corners `(±w/2, ±h/2)` relative to
the body position, in the construction order. -/
theorem c8_box_roundtrip (px py w h : ℝ) :
    readVertices (from_box (px, py) (w, h) 0) =
      [(px - w/2, py - h/2), (px - w/2, py + h/2),
       (px + w/2, py + h/2), (px + w/2, py - h/2)] := by
  simp [readVertices, from_box, vecRotated]
  refine ⟨⟨by ring, by ring⟩, ⟨by ring, by ring⟩, ⟨by ring, by ring⟩, by ring, by ring⟩

/-- Claim C3 counterexample: in the water.py scene's raster pass, slot 0 of
the freshly rewritten buffer does not hold the first live particle's
position (the write lands at entity index + 1), and the draw call covers
the full `max_particles` capacity instead of the live particle count.  With
a single circle body at position (5, 7): 5000 vertices drawn, slot 0 still
zeroed. -/
theorem c3_water_counterexample :
    (waterRasterPass [⟨true, 5, 7⟩]).2 ≠ 1 ∧
    ¬ ((waterRasterPass [⟨true, 5, 7⟩]).1[0]? = some (5, 7)) := by
  constructor
  · simp [waterRasterPass, max_particles]
  · have h0 : (waterRasterPass [⟨true, 5, 7⟩]).1 = clearedBuffer.set 1 (5, 7) := by
      simp [waterRasterPass, waterWriteAux]
    rw [h0]
    rw [List.getElem?_set_ne (by norm_num)]
    rw [clearedBuffer, List.getElem?_replicate]
    simp [max_particles, Prod.ext_iff]

/-- Claim C3 (amended): in the Game scene's raster pass the particle buffer
is cleared and rewritten before drawing — slot k holds exactly the k-th
live particle's screen position, every slot beyond the live count holds
cleared zeroes — and the draw call issues exactly one point vertex (one
quad) per live particle, never the full capacity. -/
theorem c3_game_raster (ps : List (ℚ × ℚ)) (h : ps.length ≤ max_particles) :
    (gameRasterPass ps).1 = ps ++ List.replicate (max_particles - ps.length) (0, 0) ∧
    (gameRasterPass ps).2 = ps.length := by
  refine ⟨?_, rfl⟩
  simp only [gameRasterPass, writeBufferAt, clearedBuffer, List.take_zero,
    List.nil_append, Nat.zero_add]
  rw [List.drop_replicate]

theorem c3_game_raster_witness :
    (gameRasterPass [((1:ℚ), (2:ℚ)), (3, 4)]).1
      = [((1:ℚ), (2:ℚ)), (3, 4)] ++ List.replicate (max_particles - 2) (0, 0) ∧
    (gameRasterPass [((1:ℚ), (2:ℚ)), (3, 4)]).2 = 2 := by
  have h := c3_game_raster [((1:ℚ), (2:ℚ)), (3, 4)] (by norm_num [max_particles])
  exact ⟨h.1, h.2⟩

/- ### Counting helpers for the kill-site theorem -/

theorem erase_count_zero (l : List Nat) (a : Nat) (h : l.count a ≤ 1) :
    (l.erase a).count a = 0 := by
  rw [List.count_erase_self]
  omega

theorem notMem_of_erase (l : List Nat) (a : Nat) (h : l.count a ≤ 1) :
    a ∉ l.erase a := by
  rw [← List.count_eq_zero]
  exact erase_count_zero l a h

theorem foldl_erase_count_le (xs : List Nat) (l : List Nat) (a : Nat) :
    (xs.foldl List.erase l).count a ≤ l.count a := by
  induction xs generalizing l with
  | nil => exact le_refl _
  | cons x t ih =>
    calc ((x :: t).foldl List.erase l).count a
        = (t.foldl List.erase (l.erase x)).count a := rfl
      _ ≤ (l.erase x).count a := ih (l.erase x)
      _ ≤ l.count a := (List.erase_sublist x l).count_le a

theorem foldl_erase_kills (xs : List Nat) (l : List Nat) (a : Nat)
    (hmem : a ∈ xs) (hcnt : l.count a ≤ 1) :
    a ∉ xs.foldl List.erase l := by
  induction xs generalizing l with
  | nil => cases hmem
  | cons x t ih =>
    rcases List.mem_cons.mp hmem with heq | ht
    · subst heq
      rw [← List.count_eq_zero, List.foldl_cons]
      have h0 : (l.erase a).count a = 0 := erase_count_zero l a hcnt
      have := foldl_erase_count_le t (l.erase a) a
      omega
    · exact ih (l.erase x) ht (le_trans ((List.erase_sublist x l).count_le a) hcnt)

theorem spawnFold_counts (ps : List Nat) (c : GameCols) (a : Nat) (h : a ∉ ps) :
    (ps.foldl spawnParticle c).entities.count a = c.entities.count a ∧
    (ps.foldl spawnParticle c).particles.count a = c.particles.count a := by
  induction ps generalizing c with
  | nil => exact ⟨rfl, rfl⟩
  | cons p t ih =>
    have hp : a ≠ p := fun hq => h (hq ▸ List.mem_cons_self p t)
    have ht : a ∉ t := fun hq => h (List.mem_cons_of_mem p hq)
    have hstep := ih (spawnParticle c p) ht
    refine ⟨hstep.1.trans ?_, hstep.2.trans ?_⟩ <;>
      simp [spawnParticle, List.count_append, List.count_cons, hp]

theorem meltFold_counts (plan : List (Nat × List Nat)) (c : GameCols) (a : Nat)
    (h : ∀ p ∈ plan, a ∉ p.2) :
    (plan.foldl meltOne c).entities.count a ≤ c.entities.count a ∧
    (plan.foldl meltOne c).particles.count a = c.particles.count a := by
  induction plan generalizing c with
  | nil => exact ⟨le_refl _, rfl⟩
  | cons st t ih =>
    have hst : a ∉ st.2 := h st (List.mem_cons_self st t)
    have hrest : ∀ p ∈ t, a ∉ p.2 := fun p hp => h p (List.mem_cons_of_mem st hp)
    have hspawn := spawnFold_counts st.2 c a hst
    have hone_e : (meltOne c st).entities.count a ≤ c.entities.count a := by
      simp only [meltOne, killEnt]
      calc ((st.2.foldl spawnParticle c).entities.erase st.1).count a
          ≤ (st.2.foldl spawnParticle c).entities.count a :=
            (List.erase_sublist st.1 _).count_le a
        _ = c.entities.count a := hspawn.1
    have hone_p : (meltOne c st).particles.count a = c.particles.count a := by
      simp only [meltOne, killEnt]
      exact hspawn.2
    have hrec := ih (meltOne c st) hrest
    exact ⟨le_trans hrec.1 hone_e, hrec.2.trans hone_p⟩

/-- Claim C4: at every call site of `kill()` that involves a side
collection, once the site's cleanup completes the killed entity is present
in neither the scene's primary entity list nor any side collection.  Part
one covers the RigidBody.update despawn site (circle bodies leave
`particles`, box bodies leave `icecubes`), part two the load_level cleanup,
part three the melt cleanup with its mid-loop particle spawns.  The count
hypotheses state that an entity is registered at most once per list and
that circles are never in `icecubes` nor boxes in `particles`, which is how
registration works (`RigidBody.__init__` / `spawn_icecube`). -/
theorem c4_kill_sites :
    (∀ (c : GameCols) (e : Nat) (b : Bool),
      c.entities.count e ≤ 1 → c.particles.count e ≤ 1 → c.icecubes.count e ≤ 1 →
      (b = true → e ∉ c.icecubes) → (b = false → e ∉ c.particles) →
      e ∉ (despawnSite c e b).entities ∧ e ∉ (despawnSite c e b).particles ∧
        e ∉ (despawnSite c e b).icecubes) ∧
    (∀ (c : GameCols) (e : Nat),
      c.entities.count e ≤ 1 → e ∈ c.particles ∨ e ∈ c.icecubes →
      e ∉ (load_level_clear c).entities ∧ (load_level_clear c).particles = [] ∧
        (load_level_clear c).icecubes = []) ∧
    (∀ (c : GameCols) (e : Nat) (plan : List (Nat × List Nat)),
      plan.map Prod.fst = c.icecubes → e ∈ c.icecubes → c.entities.count e ≤ 1 →
      (∀ p ∈ plan, e ∉ p.2) → e ∉ c.particles →
      e ∉ (meltSite c plan).entities ∧ e ∉ (meltSite c plan).particles ∧
        (meltSite c plan).icecubes = []) := by
  refine ⟨?_, ?_, ?_⟩
  · intro c e b h1 h2 h3 hci hcb
    cases b with
    | true =>
      refine ⟨?_, ?_, ?_⟩
      · simp only [despawnSite, killEnt, if_true]
        exact notMem_of_erase c.entities e h1
      · simp only [despawnSite, killEnt, if_true]
        exact notMem_of_erase c.particles e h2
      · simp only [despawnSite, killEnt, if_true]
        exact hci rfl
    | false =>
      refine ⟨?_, ?_, ?_⟩
      · simp only [despawnSite, killEnt, Bool.false_eq_true, if_false]
        exact notMem_of_erase c.entities e h1
      · simp only [despawnSite, killEnt, Bool.false_eq_true, if_false]
        exact hcb rfl
      · simp only [despawnSite, killEnt, Bool.false_eq_true, if_false]
        exact notMem_of_erase c.icecubes e h3
  · intro c e h1 hmem
    refine ⟨?_, rfl, rfl⟩
    simp only [load_level_clear]
    rcases hmem with hp | hi
    · have hin : e ∉ c.particles.foldl List.erase c.entities :=
        foldl_erase_kills c.particles c.entities e hp h1
      have hz : (c.particles.foldl List.erase c.entities).count e = 0 :=
        List.count_eq_zero.mpr hin
      have hle := foldl_erase_count_le c.icecubes (c.particles.foldl List.erase c.entities) e
      rw [← List.count_eq_zero]
      omega
    · have hcnt2 : (c.particles.foldl List.erase c.entities).count e ≤ 1 :=
        le_trans (foldl_erase_count_le c.particles c.entities e) h1
      exact foldl_erase_kills c.icecubes _ e hi hcnt2
  · intro c e plan hmap hmem h1 hfresh hpart
    rcases List.mem_map.mp (hmap ▸ hmem) with ⟨st, hstmem, hst⟩
    rcases List.append_of_mem hstmem with ⟨l1, l2, hplan⟩
    subst hplan
    have hfresh1 : ∀ p ∈ l1, e ∉ p.2 := fun p hp => hfresh p (by simp [hp])
    have hfresh2 : ∀ p ∈ l2, e ∉ p.2 := fun p hp => hfresh p (by simp [hp])
    have hfreshst : e ∉ st.2 := hfresh st (by simp)
    have hfold1 := meltFold_counts l1 c e hfresh1
    have hkill : (meltOne (l1.foldl meltOne c) st).entities.count e = 0 := by
      simp only [meltOne, killEnt, hst]
      rw [List.count_erase_self]
      have := (spawnFold_counts st.2 (l1.foldl meltOne c) e hfreshst).1
      omega
    have hkill_p : (meltOne (l1.foldl meltOne c) st).particles.count e
        = c.particles.count e := by
      simp only [meltOne, killEnt]
      exact (spawnFold_counts st.2 (l1.foldl meltOne c) e hfreshst).2.trans hfold1.2
    have hfold2 := meltFold_counts l2 (meltOne (l1.foldl meltOne c) st) e hfresh2
    have hfoldeq : (l1 ++ st :: l2).foldl meltOne c
        = l2.foldl meltOne (meltOne (l1.foldl meltOne c) st) := by
      rw [List.foldl_append]
      rfl
    refine ⟨?_, ?_, rfl⟩
    · simp only [meltSite, hfoldeq]
      rw [← List.count_eq_zero]
      omega
    · simp only [meltSite, hfoldeq]
      rw [← List.count_eq_zero]
      rw [hfold2.2, hkill_p]
      exact List.count_eq_zero.mpr hpart

theorem c4_kill_sites_witness :
    (2 ∉ (despawnSite ⟨[1, 2, 3], [2], [3]⟩ 2 true).entities ∧
      2 ∉ (despawnSite ⟨[1, 2, 3], [2], [3]⟩ 2 true).particles) ∧
    2 ∉ (load_level_clear ⟨[1, 2, 3], [2], [3]⟩).entities ∧
    3 ∉ (meltSite ⟨[1, 2, 3], [2], [3]⟩ [(3, [9])]).entities := by
  have h1 := c4_kill_sites.1 ⟨[1, 2, 3], [2], [3]⟩ 2 true (by decide) (by decide)
    (by decide) (by decide) (by decide)
  have h2 := c4_kill_sites.2.1 ⟨[1, 2, 3], [2], [3]⟩ 2 (by decide) (Or.inl (by decide))
  have h3 := c4_kill_sites.2.2 ⟨[1, 2, 3], [2], [3]⟩ 3 [(3, [9])] (by decide) (by decide)
    (by decide) (by decide) (by decide)
  exact ⟨⟨h1.1, h1.2.1⟩, h2.1, h3.1⟩
